import Mathlib

/-!
Verification of the dispatch engine of the DistributedTaskQueue repository
(Go). The Go sources are shallowly embedded: machine `int` becomes `Int`,
`time.Time` instants become `Int` (unix seconds; the RFC-3339 wire encoding
of an instant is modelled by the instant itself), Go maps become association
lists, JSON documents become the inductive `Json`, and fallible operations
return `Option`/`Except`. Each definition is translated from the named Go
function.
-/

namespace DTQ

/-- JSON values, modelling Go `map[string]interface{}` contents and the wire
format produced by `encoding/json`. Numbers are modelled as integers (every
numeric value the engine serialises — priority, retry counters, timestamps —
is integral and well within `float64` exactness). -/
inductive Json where
  | null : Json
  | bool (b : Bool) : Json
  | num (n : Int) : Json
  | str (s : String) : Json
  | arr (elems : List Json) : Json
  | obj (fields : List (String × Json)) : Json

/-- task.go: `Priority` (`PriorityLow = 0 < Medium < High < Critical = 3`),
modelled as the closed sum the spec prescribes. -/
inductive Priority where
  | low
  | medium
  | high
  | critical
  deriving DecidableEq

/-- The underlying Go integer of a `Priority` value. -/
def Priority.toInt : Priority → Int
  | .low => 0
  | .medium => 1
  | .high => 2
  | .critical => 3

/-- task.go: `Status` (`type Status string` with five constants), modelled as
the closed sum the engine actually uses. -/
inductive Status where
  | pending
  | processing
  | completed
  | failed
  | retrying
  deriving DecidableEq

/-- The wire string of a `Status`, as in the Go constants. -/
def Status.toWire : Status → String
  | .pending => "pending"
  | .processing => "processing"
  | .completed => "completed"
  | .failed => "failed"
  | .retrying => "retrying"

/-- Inverse of `Status.toWire` on the five constants used by the engine. -/
def statusOfWire (s : String) : Option Status :=
  if s = "pending" then some .pending
  else if s = "processing" then some .processing
  else if s = "completed" then some .completed
  else if s = "failed" then some .failed
  else if s = "retrying" then some .retrying
  else none

/-- task.go: the `Task` struct. `payload` is `map[string]interface{}` (a Go
map may be nil, hence the `Option`); timestamps are unix-second instants;
`StartedAt`/`CompletedAt` are nullable pointers. -/
structure Task where
  id : String
  type : String
  priority : Priority
  status : Status
  payload : Option (List (String × Json))
  maxRetries : Int
  retryCount : Int
  createdAt : Int
  startedAt : Option Int
  completedAt : Option Int
  error : String
  workerId : String

/-- task.go: `NewTask` — fresh id and creation instant are passed explicitly
(`uuid.New()` and `time.Now()` in Go). Defaults: status Pending,
`MaxRetries = 3`, `RetryCount = 0`. -/
def newTask (taskType : String) (priority : Priority)
    (payload : Option (List (String × Json))) (id : String) (now : Int) : Task :=
  { id := id
    type := taskType
    priority := priority
    status := .pending
    payload := payload
    maxRetries := 3
    retryCount := 0
    createdAt := now
    startedAt := none
    completedAt := none
    error := ""
    workerId := "" }

/-- task.go: `Task.CanRetry` — `t.RetryCount < t.MaxRetries`. -/
def Task.canRetry (t : Task) : Bool :=
  t.retryCount < t.maxRetries

/-- task.go: `Task.MarkStarted` — status Processing, `StartedAt` set to now,
worker recorded. -/
def markStarted (t : Task) (workerId : String) (now : Int) : Task :=
  { t with status := .processing, startedAt := some now, workerId := workerId }

/-- task.go: `Task.MarkCompleted` — status Completed, `CompletedAt` set. -/
def markCompleted (t : Task) (now : Int) : Task :=
  { t with status := .completed, completedAt := some now }

/-- task.go: `Task.MarkFailed` — status Failed, error message recorded,
`CompletedAt` set. -/
def markFailed (t : Task) (err : String) (now : Int) : Task :=
  { t with status := .failed, error := err, completedAt := some now }

/-- task.go: `Task.MarkRetrying` — status Retrying, `RetryCount` incremented. -/
def markRetrying (t : Task) : Task :=
  { t with status := .retrying, retryCount := t.retryCount + 1 }

/-- One lifecycle operation as invoked by `Queue.processTask` (queue.go):
`MarkStarted`, `MarkCompleted` and `MarkFailed` are invoked unconditionally
on the task at hand, while `MarkRetrying` is invoked only under the
`t.CanRetry()` guard (queue.go line 200). -/
inductive LifecycleStep : Task → Task → Prop where
  | started (t : Task) (w : String) (now : Int) :
      LifecycleStep t (markStarted t w now)
  | completed (t : Task) (now : Int) :
      LifecycleStep t (markCompleted t now)
  | failed (t : Task) (e : String) (now : Int) :
      LifecycleStep t (markFailed t e now)
  | retrying (t : Task) (h : t.canRetry = true) :
      LifecycleStep t (markRetrying t)

theorem lifecycleStep_retry_le {t t' : Task} (h : LifecycleStep t t')
    (ht : t.retryCount ≤ t.maxRetries) : t'.retryCount ≤ t'.maxRetries := by
  cases h with
  | started w now => exact ht
  | completed now => exact ht
  | failed e now => exact ht
  | retrying hg =>
      have hlt : t.retryCount < t.maxRetries := by
        simpa [Task.canRetry] using hg
      simpa [markRetrying] using hlt

/-- Claim C3: along every trajectory produced by the engine's lifecycle
operations — a start state with `retry_count ≤ max_retries` (as `NewTask`
guarantees with `0 ≤ 3`) followed by any sequence of `MarkStarted`,
`MarkCompleted`, `MarkFailed` and guarded `MarkRetrying` as invoked by
`processTask` — `retry_count ≤ max_retries` holds at every observed state. -/
theorem retryCount_le_maxRetries_of_trajectory (t0 t : Task)
    (h0 : t0.retryCount ≤ t0.maxRetries)
    (htraj : Relation.ReflTransGen LifecycleStep t0 t) :
    t.retryCount ≤ t.maxRetries := by
  induction htraj with
  | refl => exact h0
  | tail _ hstep ih => exact lifecycleStep_retry_le hstep ih

/-- Witness for C3: a concrete trajectory (`NewTask`, start, fail, guarded
retry) observed from a fresh task. -/
theorem retryCount_le_maxRetries_of_trajectory_witness :
    ((markRetrying (markStarted (newTask "email" .high none "id-1" 100) "w1" 101)).retryCount ≤
      (markRetrying (markStarted (newTask "email" .high none "id-1" 100) "w1" 101)).maxRetries) :=
  retryCount_le_maxRetries_of_trajectory
    (newTask "email" .high none "id-1" 100)
    (markRetrying (markStarted (newTask "email" .high none "id-1" 100) "w1" 101))
    (by decide)
    (Relation.ReflTransGen.tail
      (Relation.ReflTransGen.single (LifecycleStep.started _ "w1" 101))
      (LifecycleStep.retrying _ (by decide)))

/-- Metric events emitted by one or more `processTask` invocations
(queue.go): handler invocations, `queue_size` decrements (line 191),
`tasks_processed_total{failed}` / `{completed}` increments, and
`task_retries_total` increments. -/
structure ProcCounters where
  invocations : Nat
  queueSizeDecs : Nat
  processedFailed : Nat
  processedCompleted : Nat
  retryIncs : Nat
  deriving DecidableEq

/-- Pointwise sum of two counter records. -/
def addCounters (a b : ProcCounters) : ProcCounters :=
  { invocations := a.invocations + b.invocations
    queueSizeDecs := a.queueSizeDecs + b.queueSizeDecs
    processedFailed := a.processedFailed + b.processedFailed
    processedCompleted := a.processedCompleted + b.processedCompleted
    retryIncs := a.retryIncs + b.retryIncs }

/-- A handler registry: task type to handler; a handler is modelled by the
error it returns on each invocation (indexed from 0), `none` meaning
success, mirroring `TaskHandler`'s `error` result. -/
def Handlers : Type :=
  String → Option (Nat → Option String)

/-- queue.go: one `Queue.processTask` call. Steps, in source order:
`MarkStarted` + persist; handler lookup — if absent, `MarkFailed` with
`"no handler for task type: "` + type, emit a failed metric and return
(note: before the `queue_size` decrement on line 191); otherwise invoke the
handler, decrement `queue_size`, then branch on the error: retry when
`CanRetry()` (with re-enqueue, the returned `Bool`), else `MarkFailed`;
on success `MarkCompleted`. Store updates do not affect the task value. -/
def processTaskOnce (handlers : Handlers) (attempt : Nat) (t : Task)
    (w : String) (now : Int) : Task × ProcCounters × Bool :=
  let t1 := markStarted t w now
  match handlers t1.type with
  | none =>
      (markFailed t1 ("no handler for task type: " ++ t1.type) now,
        ⟨0, 0, 1, 0, 0⟩, false)
  | some h =>
      match h attempt with
      | none => (markCompleted t1 now, ⟨1, 1, 0, 1, 0⟩, false)
      | some e =>
          if t1.canRetry then (markRetrying t1, ⟨1, 1, 0, 0, 1⟩, true)
          else (markFailed t1 e now, ⟨1, 1, 1, 0, 0⟩, false)

/-- The worker loop as it affects a single task: a task marked Retrying is
re-enqueued onto its priority channel and processed again by `processTask`
(queue.go lines 200 to 208), until a terminal transition. `fuel` bounds the
number of `processTask` calls; `none` means the bound was hit before a
terminal transition. -/
def runToTerminal (handlers : Handlers) (w : String) (now : Int) :
    Nat → Nat → Task → Option (Task × ProcCounters)
  | 0, _, _ => none
  | fuel + 1, attempt, t =>
      match processTaskOnce handlers attempt t w now with
      | (t1, c, requeued) =>
          if requeued then
            match runToTerminal handlers w now fuel (attempt + 1) t1 with
            | none => none
            | some (tf, crest) => some (tf, addCounters c crest)
          else
            some (t1, c)

/-- The always-failing handler registry of the permanent-failure scenario:
type `"T"` registered with a handler erroring `"boom"` on every attempt. -/
def boomHandlers : Handlers :=
  fun ty => if ty = "T" then some (fun _ => some "boom") else none

/-- The empty handler registry (no `RegisterHandler` call was made). -/
def noHandlers : Handlers :=
  fun _ => none

/-- The permanent-failure scenario's task: submitted with `max_retries = 2`. -/
def boomTask : Task :=
  { newTask "T" .high (some [("k", Json.str "v")]) "id-boom" 50 with maxRetries := 2 }

/-- Claim C4: with `max_retries = 2` and a handler erroring on every
invocation, the run terminates (within the fuel bound, hence exactly) in
status Failed with `retry_count = 2`, `error` equal to the handler's
message, and the handler invoked exactly 3 times. -/
theorem permanent_failure_scenario :
    (runToTerminal boomHandlers "w" 60 10 0 boomTask).map
        (fun r => (r.1.status, r.1.retryCount, r.1.error, r.2.invocations)) =
      some (Status.failed, 2, "boom", 3) := by
  decide

/-- One engine step on a task as actually sequenced by `processTask`
(queue.go): `MarkStarted` is applied to tasks received from the channels —
which are enqueued while Pending (`Submit`, poller) or Retrying (poller,
retry re-enqueue) — and the completion, failure and guarded retry
transitions are applied to the Processing task within the same call. -/
inductive EngineStep : Task → Task → Prop where
  | start (t : Task) (w : String) (now : Int)
      (h : t.status = .pending ∨ t.status = .retrying) :
      EngineStep t (markStarted t w now)
  | complete (t : Task) (now : Int) (h : t.status = .processing) :
      EngineStep t (markCompleted t now)
  | fail (t : Task) (e : String) (now : Int) (h : t.status = .processing) :
      EngineStep t (markFailed t e now)
  | retry (t : Task) (h : t.status = .processing) (hg : t.canRetry = true) :
      EngineStep t (markRetrying t)

theorem no_engineStep_from_terminal {t t' : Task}
    (hterm : t.status = Status.completed ∨ t.status = Status.failed)
    (hstep : EngineStep t t') : False := by
  cases hstep with
  | start w now h => rcases hterm with h1 | h1 <;> rcases h with h2 | h2 <;>
      simp [h1] at h2
  | complete now h => rcases hterm with h1 | h1 <;> simp [h1] at h
  | fail e now h => rcases hterm with h1 | h1 <;> simp [h1] at h
  | retry h hg => rcases hterm with h1 | h1 <;> simp [h1] at h

/-- A task that reached the terminal status Completed through the engine. -/
def doneTask : Task :=
  markCompleted (markStarted (newTask "T" .low none "id-done" 0) "w" 1) 2

/-- Counterexample to C6 as stated: the lifecycle operations themselves are
unguarded — `MarkStarted` applied to a Completed task changes its status
(to Processing). -/
theorem markStarted_changes_terminal_status :
    doneTask.status = Status.completed ∧
      (markStarted doneTask "w2" 3).status ≠ doneTask.status := by
  decide

/-- Claim C6 (amended): Completed and Failed are terminal in every
trajectory the engine actually produces — under `processTask`'s sequencing
(`EngineStep`), no step applies to a terminal task, so a task reachable
from a terminal one is that task itself and in particular its status never
changes again. -/
theorem terminal_status_is_final (t t' : Task)
    (hterm : t.status = Status.completed ∨ t.status = Status.failed)
    (htraj : Relation.ReflTransGen EngineStep t t') : t' = t := by
  rcases (Relation.ReflTransGen.cases_head htraj) with heq | ⟨b, hstep, _⟩
  · exact heq.symm
  · exact absurd hstep (fun hs => no_engineStep_from_terminal hterm hs)

/-- Witness for the amended C6: the concrete completed task `doneTask` with
the empty trajectory. -/
theorem terminal_status_is_final_witness :
    doneTask = doneTask :=
  terminal_status_is_final doneTask doneTask (Or.inl (by decide))
    Relation.ReflTransGen.refl

/-- queue.go: the capacity of each per-priority task channel (`NewQueue`
makes each `chan *task.Task` with buffer 100). -/
def chanCap : Nat := 100

/-- The four bounded priority channels, each modelled by its buffered
content in FIFO order. -/
def Channels : Type :=
  Priority → List Task

/-- queue.go: a non-blocking send `select { case ch <- t: default: }` on the
task's priority channel — append when the buffer has room, drop otherwise. -/
def tryEnqueue (ch : Channels) (t : Task) : Channels :=
  if (ch t.priority).length < chanCap then
    fun p => if p = t.priority then ch p ++ [t] else ch p
  else ch

/-- queue.go, `pollPendingTasks`: the `for _, t := range tasks` loop, each
iteration attempting a non-blocking enqueue. -/
def pollBatch (ch : Channels) (ts : List Task) : Channels :=
  ts.foldl tryEnqueue ch

/-- queue.go: `Queue.pollPendingTasks` — fetch up to 50 Pending tasks and
enqueue each non-blockingly, then fetch up to 20 Retrying tasks and do the
same. The storage is abstracted by `fetch`, as the Go code abstracts it
behind the `Storage` interface. -/
def pollPendingTasks (fetch : Status → Nat → List Task) (ch : Channels) : Channels :=
  pollBatch (pollBatch ch (fetch .pending 50)) (fetch .retrying 20)

theorem tryEnqueue_apply_ne (ch : Channels) (t : Task) (p : Priority)
    (hp : ¬ p = t.priority) : tryEnqueue ch t p = ch p := by
  unfold tryEnqueue
  split
  · simp [hp]
  · rfl

theorem pollBatch_apply (ts : List Task) (ch : Channels) (p : Priority) :
    pollBatch ch ts p =
      ch p ++ (ts.filter fun t => decide (t.priority = p)).take
        (chanCap - (ch p).length) := by
  induction ts generalizing ch with
  | nil => simp [pollBatch]
  | cons t ts ih =>
      have hstep : pollBatch ch (t :: ts) = pollBatch (tryEnqueue ch t) ts := rfl
      rw [hstep, ih]
      by_cases hp : t.priority = p
      · subst hp
        by_cases hl : (ch t.priority).length < chanCap
        · have h1 : tryEnqueue ch t t.priority = ch t.priority ++ [t] := by
            simp [tryEnqueue, hl]
          rw [h1]
          have hc : chanCap - (ch t.priority).length =
              (chanCap - ((ch t.priority).length + 1)) + 1 := by omega
          simp only [List.filter_cons, decide_True, List.length_append,
            List.length_singleton, hc, List.take_succ_cons, List.append_assoc,
            List.singleton_append, if_true]
        · have h1 : tryEnqueue ch t = ch := by simp [tryEnqueue, hl]
          have hc : chanCap - (ch t.priority).length = 0 := by omega
          rw [h1]
          simp [List.filter_cons, hc]
      · have h1 : tryEnqueue ch t p = ch p := tryEnqueue_apply_ne ch t p
          (fun he => hp he.symm)
        rw [h1]
        simp [List.filter_cons, hp]

/-- Modelled from the claim's words (for refutation): a poller that, upon
the first queue-full enqueue failure, stops processing the remainder of the
batch. -/
def pollBatchStopOnFull (ch : Channels) : List Task → Channels
  | [] => ch
  | t :: ts =>
      if (ch t.priority).length < chanCap then
        pollBatchStopOnFull (fun p => if p = t.priority then ch p ++ [t] else ch p) ts
      else ch

/-- A channel state whose Medium channel is full and whose others are empty. -/
def fullMediumChannels : Channels :=
  fun p => if p = .medium then List.replicate chanCap boomTask else []

/-- A poll batch: a Medium task (whose channel is full) followed by a High
task (whose channel is empty). -/
def pollCexBatch : List Task :=
  [newTask "T" .medium none "id-m" 0, newTask "T" .high none "id-h" 0]

/-- Counterexample to C2 as stated: with the Medium channel full, the code's
poll loop still enqueues the subsequent High task, whereas stopping at the
first queue-full failure would leave the High channel empty. -/
theorem poll_does_not_stop_on_full :
    pollBatch fullMediumChannels pollCexBatch Priority.high ≠
      pollBatchStopOnFull fullMediumChannels pollCexBatch Priority.high := by
  intro h
  have hlen := congrArg List.length h
  have h1 : (pollBatch fullMediumChannels pollCexBatch Priority.high).length = 1 := by
    rfl
  have h2 : (pollBatchStopOnFull fullMediumChannels pollCexBatch Priority.high).length = 0 := by
    rfl
  rw [h1, h2] at hlen
  exact Nat.one_ne_zero hlen

/-- Claim C2 (amended): each poller tick fetches up to 50 Pending then up to
20 Retrying tasks and attempts a non-blocking enqueue for each in order; a
queue-full failure only skips that task, and processing continues with the
remainder of the batch — each priority channel receives exactly the first
`capacity - current length` tasks of its priority from the batch, regardless
of enqueue failures on other channels. -/
theorem poll_skips_full_and_continues :
    (∀ (fetch : Status → Nat → List Task) (ch : Channels),
        pollPendingTasks fetch ch =
          pollBatch (pollBatch ch (fetch Status.pending 50)) (fetch Status.retrying 20)) ∧
      ∀ (ch : Channels) (ts : List Task) (p : Priority),
        pollBatch ch ts p =
          ch p ++ (ts.filter fun t => decide (t.priority = p)).take
            (chanCap - (ch p).length) :=
  ⟨fun _ _ => rfl, fun ch ts p => pollBatch_apply ts ch p⟩

/-- queue.go: `Queue.Submit` — persist the task via `SaveTask` (the returned
list is the log of store writes), increment `tasks_submitted_total` and
`queue_size` once each (the returned count is the `queue_size` increments),
and attempt a non-blocking enqueue. -/
def queueSubmit (ch : Channels) (t : Task) : Channels × List Task × Nat :=
  (tryEnqueue ch t, [t], 1)

/-- Claim C8, code evaluated at the failing inputs: `Submit` increments
`queue_size` once, but `processTask` decrements it once per handler
invocation — the permanently failing `max_retries = 2` task yields 3
decrements (not 1), and a task failing terminally for lack of a handler
yields 0 decrements (not 1). -/
theorem queueSize_decremented_per_attempt :
    (∀ (ch : Channels) (t : Task), (queueSubmit ch t).2.2 = 1) ∧
      ((runToTerminal boomHandlers "w" 60 10 0 boomTask).map
          fun r => r.2.queueSizeDecs) = some 3 ∧
      ((runToTerminal noHandlers "w" 60 10 0 (newTask "U" .low none "id-u" 0)).map
          fun r => (r.1.status, r.2.queueSizeDecs)) = some (Status.failed, 0) :=
  ⟨fun _ _ => rfl, by decide, by decide⟩

/-- Association-list lookup by string key (Go map read / Redis `GET`). -/
def alookup {α : Type} (l : List (String × α)) (k : String) : Option α :=
  (l.find? fun kv => decide (kv.1 = k)).map (fun kv => kv.2)

/-- storage.go: the scheduling score used by `RedisStorage.SaveTask` —
`float64(t.Priority)*1000000 + float64(t.CreatedAt.Unix())` (exact in
`float64` for these magnitudes, hence modelled in `Int`). -/
def scoreOf (t : Task) : Int :=
  t.priority.toInt * 1000000 + t.createdAt

/-- Redis `ZADD`: insert a member with its score, replacing any previous
entry for the member. -/
def zadd (s : List (String × Int)) (member : String) (score : Int) :
    List (String × Int) :=
  (member, score) :: s.filter fun e => decide (¬ e.1 = member)

/-- storage.go: the state of `RedisStorage` — the `task:{id}` records and
one `tasks:status:{status}` sorted set per status. -/
structure RedisState where
  primary : List (String × Task)
  index : Status → List (String × Int)

/-- storage.go: `RedisStorage.SaveTask` — `SET task:{id}` plus `ZADD` into
the status index with the scheduling score. -/
def redisSaveTask (st : RedisState) (t : Task) : RedisState :=
  { primary := (t.id, t) :: st.primary.filter fun kv => decide (¬ kv.1 = t.id)
    index := fun s =>
      if s = t.status then zadd (st.index s) t.id (scoreOf t) else st.index s }

/-- storage.go: `RedisStorage.GetTask` — `GET task:{id}`, an error when the
key is absent. -/
def redisGetTask (st : RedisState) (id : String) : Except String Task :=
  match alookup st.primary id with
  | some t => .ok t
  | none => .error ("task not found: " ++ id)

/-- storage.go: `RedisStorage.DeleteTask` — `GetTask` first (propagating its
not-found error), then `DEL task:{id}` and `ZREM` from the current status's
index. -/
def redisDeleteTask (st : RedisState) (id : String) : Except String RedisState :=
  match redisGetTask st id with
  | .error e => .error e
  | .ok t =>
      .ok
        { primary := st.primary.filter fun kv => decide (¬ kv.1 = id)
          index := fun s =>
            if s = t.status then (st.index s).filter fun e => decide (¬ e.1 = id)
            else st.index s }

/-- Insertion into a score-descending list, keeping descending order. -/
def insertScoreDesc (x : String × Int) : List (String × Int) → List (String × Int)
  | [] => [x]
  | y :: ys => if y.2 ≤ x.2 then x :: y :: ys else y :: insertScoreDesc x ys

/-- Arrangement of a sorted set's members in descending score order, as the
Redis server maintains it. -/
def sortScoreDesc : List (String × Int) → List (String × Int)
  | [] => []
  | x :: xs => insertScoreDesc x (sortScoreDesc xs)

/-- Redis `ZREVRANGE key 0 (limit-1)`: members in descending score order;
the code passes `int64(limit-1)`, and with `limit = 0` the stop index `-1`
denotes the last member, so the whole set is returned. -/
def zrevrange (s : List (String × Int)) (limit : Nat) : List (String × Int) :=
  if limit = 0 then sortScoreDesc s else (sortScoreDesc s).take limit

/-- storage.go: `RedisStorage.GetTasksByStatus` — ids from `ZREVRANGE` on
the status index, each resolved through `GetTask`, skipping ids that fail
to resolve. -/
def redisGetTasksByStatus (st : RedisState) (status : Status) (limit : Nat) :
    List Task :=
  (zrevrange (st.index status) limit).filterMap fun e =>
    match redisGetTask st e.1 with
    | .ok t => some t
    | .error _ => none

/-- storage.go: `MemoryStorage.GetTasksByStatus` — iterate the task map (Go
map iteration order is unspecified; the model iterates in list order),
collecting tasks of the given status and breaking once `len(tasks) >= limit`
after an append. No sorting is performed. -/
def memGetTasksByStatus (m : List (String × Task)) (s : Status) (limit : Nat) :
    List Task :=
  match m with
  | [] => []
  | kv :: rest =>
      if kv.2.status = s then
        if limit ≤ 1 then [kv.2]
        else kv.2 :: memGetTasksByStatus rest s (limit - 1)
      else memGetTasksByStatus rest s limit

/-- storage.go: `MemoryStorage.DeleteTask` — `delete(m.tasks, id)`, always
succeeding. -/
def memDeleteTask (m : List (String × Task)) (id : String) :
    List (String × Task) :=
  m.filter fun kv => decide (¬ kv.1 = id)

theorem mem_insertScoreDesc {x a : String × Int} {l : List (String × Int)} :
    a ∈ insertScoreDesc x l ↔ a = x ∨ a ∈ l := by
  induction l with
  | nil => simp [insertScoreDesc]
  | cons y ys ih =>
      rw [insertScoreDesc]
      by_cases hle : y.2 ≤ x.2
      · rw [if_pos hle]
        simp
      · rw [if_neg hle]
        simp only [List.mem_cons, ih]
        tauto

theorem mem_sortScoreDesc {a : String × Int} {l : List (String × Int)} :
    a ∈ sortScoreDesc l ↔ a ∈ l := by
  induction l with
  | nil => simp [sortScoreDesc]
  | cons y ys ih =>
      rw [sortScoreDesc]
      rw [mem_insertScoreDesc]
      simp [ih]

theorem pairwise_insertScoreDesc {x : String × Int} {l : List (String × Int)}
    (h : l.Pairwise fun a b => b.2 ≤ a.2) :
    (insertScoreDesc x l).Pairwise fun a b => b.2 ≤ a.2 := by
  induction l with
  | nil => simp [insertScoreDesc]
  | cons y ys ih =>
      rcases List.pairwise_cons.mp h with ⟨hy, hys⟩
      rw [insertScoreDesc]
      by_cases hle : y.2 ≤ x.2
      · rw [if_pos hle]
        refine List.Pairwise.cons ?_ h
        intro z hz
        rcases List.mem_cons.mp hz with rfl | hz
        · exact hle
        · exact le_trans (hy z hz) hle
      · rw [if_neg hle]
        refine List.Pairwise.cons ?_ (ih hys)
        intro z hz
        rcases mem_insertScoreDesc.mp hz with rfl | hz
        · exact le_of_not_le hle
        · exact hy z hz

theorem pairwise_sortScoreDesc (l : List (String × Int)) :
    (sortScoreDesc l).Pairwise fun a b => b.2 ≤ a.2 := by
  induction l with
  | nil => simp [sortScoreDesc]
  | cons y ys ih =>
      rw [sortScoreDesc]
      exact pairwise_insertScoreDesc ih

theorem length_insertScoreDesc (x : String × Int) (l : List (String × Int)) :
    (insertScoreDesc x l).length = l.length + 1 := by
  induction l with
  | nil => rfl
  | cons y ys ih =>
      rw [insertScoreDesc]
      by_cases hle : y.2 ≤ x.2
      · rw [if_pos hle]
        rfl
      · rw [if_neg hle]
        simp [ih]

theorem length_sortScoreDesc (l : List (String × Int)) :
    (sortScoreDesc l).length = l.length := by
  induction l with
  | nil => rfl
  | cons y ys ih =>
      rw [sortScoreDesc, length_insertScoreDesc, ih]
      rfl

/-- Consistency of a status index with the primary records, as `SaveTask`
and `UpdateTask` maintain it: every entry of `tasks:status:{s}` resolves to
a primary task with status `s` and the entry's score is that task's
scheduling score. -/
def RedisWf (st : RedisState) (s : Status) : Prop :=
  ∀ e ∈ st.index s,
    ∃ t, alookup st.primary e.1 = some t ∧ t.status = s ∧ e.2 = scoreOf t

theorem resolve_of_wf {st : RedisState} {s : Status} (hwf : RedisWf st s)
    {e : String × Int} (he : e ∈ st.index s) {t : Task}
    (ht : (match redisGetTask st e.1 with
            | .ok t => some t
            | .error _ => none) = some t) :
    t.status = s ∧ e.2 = scoreOf t := by
  rcases hwf e he with ⟨t', hlk, hs, hsc⟩
  have hg : redisGetTask st e.1 = .ok t' := by
    simp [redisGetTask, hlk]
  rw [hg] at ht
  simp only [Option.some.injEq] at ht
  subst ht
  exact ⟨hs, hsc⟩

theorem pairwise_filterMap_score {st : RedisState} {s : Status}
    (hwf : RedisWf st s) :
    ∀ {l : List (String × Int)}, (∀ e ∈ l, e ∈ st.index s) →
      (l.Pairwise fun a b => b.2 ≤ a.2) →
      (l.filterMap fun e =>
          match redisGetTask st e.1 with
          | .ok t => some t
          | .error _ => none).Pairwise fun a b => scoreOf b ≤ scoreOf a := by
  intro l
  induction l with
  | nil =>
      intro _ _
      simp
  | cons e es ih =>
      intro hsub hp
      rcases List.pairwise_cons.mp hp with ⟨hefirst, hes⟩
      rw [List.filterMap_cons]
      cases hres : (match redisGetTask st e.1 with
        | .ok t => some t
        | .error _ => none) with
      | none => exact ih (fun x hx => hsub x (List.mem_cons_of_mem _ hx)) hes
      | some t =>
          refine List.Pairwise.cons ?_
            (ih (fun x hx => hsub x (List.mem_cons_of_mem _ hx)) hes)
          intro t2 ht2
          rcases List.mem_filterMap.mp ht2 with ⟨e2, he2, hfe2⟩
          have h1 := resolve_of_wf hwf (hsub e (List.mem_cons_self _ _)) hres
          have h2 := resolve_of_wf hwf (hsub e2 (List.mem_cons_of_mem _ he2)) hfe2
          have hle : e2.2 ≤ e.2 := hefirst e2 he2
          rw [h1.2, h2.2] at hle
          exact hle

theorem zrevrange_subset {idx : List (String × Int)} {limit : Nat}
    {e : String × Int} (he : e ∈ zrevrange idx limit) : e ∈ idx := by
  unfold zrevrange at he
  split at he
  · exact mem_sortScoreDesc.mp he
  · exact mem_sortScoreDesc.mp (List.mem_of_mem_take he)

theorem memGet_length_le (s : Status) :
    ∀ (m : List (String × Task)) (limit : Nat), 1 ≤ limit →
      (memGetTasksByStatus m s limit).length ≤ limit := by
  intro m
  induction m with
  | nil =>
      intro limit _
      simp [memGetTasksByStatus]
  | cons kv rest ih =>
      intro limit hl
      rw [memGetTasksByStatus]
      by_cases hs : kv.2.status = s
      · rw [if_pos hs]
        by_cases h1 : limit ≤ 1
        · rw [if_pos h1]
          simpa using hl
        · rw [if_neg h1]
          have := ih (limit - 1) (by omega)
          simp only [List.length_cons]
          omega
      · rw [if_neg hs]
        exact ih limit hl

theorem memGet_status (s : Status) :
    ∀ (m : List (String × Task)) (limit : Nat),
      ∀ t ∈ memGetTasksByStatus m s limit, t.status = s := by
  intro m
  induction m with
  | nil =>
      intro limit t ht
      simp [memGetTasksByStatus] at ht
  | cons kv rest ih =>
      intro limit t ht
      rw [memGetTasksByStatus] at ht
      by_cases hs : kv.2.status = s
      · rw [if_pos hs] at ht
        by_cases h1 : limit ≤ 1
        · rw [if_pos h1] at ht
          rcases List.mem_singleton.mp ht with rfl
          exact hs
        · rw [if_neg h1] at ht
          rcases List.mem_cons.mp ht with rfl | ht
          · exact hs
          · exact ih (limit - 1) t ht
      · rw [if_neg hs] at ht
        exact ih limit t ht

/-- Claim C1 (amended): for a consistent Redis store and a positive limit,
`GetTasksByStatus` returns at most `limit` tasks, all with the requested
status, in descending scheduling-score order (`score = priority * 10^6 +
created_at_unix`); the in-memory implementation returns at most `limit`
tasks all with the requested status, but in map-iteration order, with no
score ordering. -/
theorem getTasksByStatus_ordered (st : RedisState) (s : Status) (limit : Nat)
    (hwf : RedisWf st s) (hl : 1 ≤ limit) :
    ((redisGetTasksByStatus st s limit).length ≤ limit ∧
        (∀ t ∈ redisGetTasksByStatus st s limit, t.status = s) ∧
        (redisGetTasksByStatus st s limit).Pairwise
          fun a b => scoreOf b ≤ scoreOf a) ∧
      ∀ m : List (String × Task),
        (memGetTasksByStatus m s limit).length ≤ limit ∧
          ∀ t ∈ memGetTasksByStatus m s limit, t.status = s := by
  refine ⟨⟨?_, ?_, ?_⟩, fun m => ⟨memGet_length_le s m limit hl, memGet_status s m limit⟩⟩
  · have h1 : (redisGetTasksByStatus st s limit).length ≤
        (zrevrange (st.index s) limit).length := List.length_filterMap_le _ _
    have h2 : (zrevrange (st.index s) limit).length ≤ limit := by
      unfold zrevrange
      rw [if_neg (by omega : ¬ limit = 0)]
      rw [List.length_take]
      omega
    exact le_trans h1 h2
  · intro t ht
    rcases List.mem_filterMap.mp ht with ⟨e, he, hfe⟩
    exact (resolve_of_wf hwf (zrevrange_subset he) hfe).1
  · apply pairwise_filterMap_score hwf (fun e he => zrevrange_subset he)
    unfold zrevrange
    split
    · exact pairwise_sortScoreDesc _
    · exact List.Pairwise.sublist (List.take_sublist _ _) (pairwise_sortScoreDesc _)

/-- A two-task in-memory store whose iteration order puts the low-score
Pending task before the high-score one. -/
def memCexStore : List (String × Task) :=
  [("a", newTask "T" .low none "a" 0), ("b", newTask "T" .critical none "b" 0)]

/-- Counterexample to C1 as stated: the in-memory implementation performs no
sorting, so on `memCexStore` (iteration order low-score first) the returned
Pending tasks are not in descending scheduling-score order. -/
theorem memory_getTasksByStatus_not_ordered :
    ¬ (memGetTasksByStatus memCexStore Status.pending 50).Pairwise
        (fun a b => scoreOf b ≤ scoreOf a) := by
  intro h
  have he : memGetTasksByStatus memCexStore Status.pending 50 =
      [newTask "T" .low none "a" 0, newTask "T" .critical none "b" 0] := rfl
  rw [he] at h
  rcases List.pairwise_cons.mp h with ⟨hab, _⟩
  have h2 := hab (newTask "T" .critical none "b" 0) (by simp)
  simp [scoreOf, newTask, Priority.toInt] at h2

/-- A consistent one-task Redis state with a Pending task. -/
def redisWitnessState : RedisState :=
  { primary := [("a", newTask "T" .low none "a" 0)]
    index := fun s =>
      if s = Status.pending then [("a", scoreOf (newTask "T" .low none "a" 0))]
      else [] }

theorem redisWitnessState_wf : RedisWf redisWitnessState Status.pending := by
  intro e he
  simp [redisWitnessState] at he
  subst he
  exact ⟨newTask "T" .low none "a" 0, rfl, rfl, rfl⟩

/-- Witness for the amended C1 at a concrete consistent store and limit 50. -/
theorem getTasksByStatus_ordered_witness :
    ((redisGetTasksByStatus redisWitnessState Status.pending 50).length ≤ 50 ∧
        (∀ t ∈ redisGetTasksByStatus redisWitnessState Status.pending 50,
          t.status = Status.pending) ∧
        (redisGetTasksByStatus redisWitnessState Status.pending 50).Pairwise
          fun a b => scoreOf b ≤ scoreOf a) ∧
      ∀ m : List (String × Task),
        (memGetTasksByStatus m Status.pending 50).length ≤ 50 ∧
          ∀ t ∈ memGetTasksByStatus m Status.pending 50,
            t.status = Status.pending :=
  getTasksByStatus_ordered redisWitnessState Status.pending 50
    redisWitnessState_wf (by omega)

theorem alookup_filter_ne {α : Type} (l : List (String × α)) (id : String) :
    alookup (l.filter fun kv => decide (¬ kv.1 = id)) id = none := by
  induction l with
  | nil => rfl
  | cons kv rest ih =>
      rw [List.filter_cons]
      by_cases hk : kv.1 = id
      · rw [if_neg (by simp [hk])]
        exact ih
      · rw [if_pos (by simp [hk])]
        unfold alookup
        rw [List.find?_cons_of_neg _ (by simp [hk])]
        exact ih

/-- Counterexample to C5 as stated: deleting an id absent from the Redis
store does not succeed — `RedisStorage.DeleteTask` first calls `GetTask` and
propagates its not-found error, so in particular the second of two
consecutive deletes of the same id fails instead of succeeding. -/
theorem redisDelete_absent_id_errors :
    redisDeleteTask ⟨[], fun _ => []⟩ "missing" =
      .error "task not found: missing" := rfl

/-- Claim C5 (amended): `MemoryStorage.DeleteTask` is idempotent and deleting
an absent id succeeds; `RedisStorage.DeleteTask` removes the primary record
and the entry in the current status index when the id is present, but
returns a not-found error — leaving the store unmodified — when the id is
absent, so deleting twice makes the second call fail. -/
theorem deleteTask_semantics :
    (∀ (m : List (String × Task)) (id : String),
        memDeleteTask (memDeleteTask m id) id = memDeleteTask m id) ∧
      (∀ (m : List (String × Task)) (id : String),
        alookup (memDeleteTask m id) id = none) ∧
      (∀ (st : RedisState) (id : String), alookup st.primary id = none →
        redisDeleteTask st id = .error ("task not found: " ++ id)) ∧
      ∀ (st : RedisState) (id : String) (t : Task),
        alookup st.primary id = some t →
          ∃ st', redisDeleteTask st id = .ok st' ∧
            alookup st'.primary id = none ∧
            ∀ e ∈ st'.index t.status, ¬ e.1 = id := by
  refine ⟨?_, ?_, ?_, ?_⟩
  · intro m id
    unfold memDeleteTask
    apply List.filter_eq_self.mpr
    intro kv hkv
    simp only [List.mem_filter] at hkv
    exact hkv.2
  · intro m id
    exact alookup_filter_ne m id
  · intro st id h
    have hg : redisGetTask st id = .error ("task not found: " ++ id) := by
      unfold redisGetTask
      rw [h]
    unfold redisDeleteTask
    rw [hg]
  · intro st id t h
    have hg : redisGetTask st id = .ok t := by
      unfold redisGetTask
      rw [h]
    refine ⟨{ primary := st.primary.filter fun kv => decide (¬ kv.1 = id)
              index := fun s =>
                if s = t.status then (st.index s).filter fun e => decide (¬ e.1 = id)
                else st.index s }, ?_, ?_, ?_⟩
    · unfold redisDeleteTask
      rw [hg]
    · exact alookup_filter_ne _ _
    · intro e he
      simp only [if_pos rfl] at he
      simpa using List.of_mem_filter he

/-- Witness for the amended C5: the absent-id branch evaluated on the empty
store and the present-id branch on the concrete one-task store. -/
theorem deleteTask_semantics_witness :
    (redisDeleteTask ⟨[], fun _ => []⟩ "zzz" =
        .error ("task not found: " ++ "zzz")) ∧
      ∃ st', redisDeleteTask redisWitnessState "a" = .ok st' ∧
        alookup st'.primary "a" = none ∧
        ∀ e ∈ st'.index (newTask "T" .low none "a" 0).status, ¬ e.1 = "a" :=
  ⟨deleteTask_semantics.2.2.1 ⟨[], fun _ => []⟩ "zzz" rfl,
    deleteTask_semantics.2.2.2 redisWitnessState "a" (newTask "T" .low none "a" 0) rfl⟩

/-- server.go: the decoded body of `POST /api/v1/tasks`. Fields absent from
the JSON body decode to Go zero values: priority `0`, max_retries `0`,
payload nil. -/
structure SubmitRequest where
  type : String
  priority : Int
  payload : Option (List (String × Json))
  maxRetries : Int

/-- The Go conversion `task.Priority(i)` on the in-range values `0..3` (the
handler guards the range before this is relevant). -/
def priorityOfInt (i : Int) : Priority :=
  if i = 0 then .low
  else if i = 1 then .medium
  else if i = 2 then .high
  else .critical

/-- Outcome of `Server.handleSubmitTask`: an error response written before
`Queue.Submit` is ever called, or a created task handed to `Queue.Submit`. -/
inductive SubmitOutcome where
  | rejected (httpStatus : Nat) (message : String)
  | accepted (t : Task)

/-- server.go: `Server.handleSubmitTask` after a successful JSON decode —
reject an empty type with HTTP 400 `"task type is required"`; replace an
out-of-range priority (outside Low..Critical) by Medium; build the task via
`NewTask` (max_retries defaults to 3) and override max_retries only when
the request's value is strictly positive; then hand the task to Submit. -/
def handleSubmitTask (req : SubmitRequest) (id : String) (now : Int) :
    SubmitOutcome :=
  if req.type = "" then .rejected 400 "task type is required"
  else
    let priority :=
      if req.priority < 0 ∨ 3 < req.priority then Priority.medium
      else priorityOfInt req.priority
    let t0 := newTask req.type priority req.payload id now
    let t := if 0 < req.maxRetries then { t0 with maxRetries := req.maxRetries } else t0
    .accepted t

/-- The `SaveTask` calls performed by the submission path: `Queue.Submit`
persists the accepted task (queue.go line 78); a rejected request performs
none, since the handler returns before calling `Submit`. -/
def submitPathWrites (req : SubmitRequest) (id : String) (now : Int) : List Task :=
  match handleSubmitTask req id now with
  | .rejected _ _ => []
  | .accepted t => (queueSubmit (fun _ => []) t).2.1

/-- Claim C7: a submission with an empty (missing) type is rejected with a
validation error surfaced to the caller (HTTP 400, `"task type is
required"`) and no task is persisted to the store. -/
theorem submit_rejects_empty_type (req : SubmitRequest) (id : String) (now : Int)
    (h : req.type = "") :
    handleSubmitTask req id now = .rejected 400 "task type is required" ∧
      submitPathWrites req id now = [] := by
  have h1 : handleSubmitTask req id now = .rejected 400 "task type is required" := by
    unfold handleSubmitTask
    rw [if_pos h]
  refine ⟨h1, ?_⟩
  unfold submitPathWrites
  rw [h1]

/-- Witness for C7: the concrete empty-type request. -/
theorem submit_rejects_empty_type_witness :
    handleSubmitTask ⟨"", 1, none, 0⟩ "id-w7" 5 =
        .rejected 400 "task type is required" ∧
      submitPathWrites ⟨"", 1, none, 0⟩ "id-w7" 5 = [] :=
  submit_rejects_empty_type ⟨"", 1, none, 0⟩ "id-w7" 5 rfl

/-- Claim C10: at the HTTP submission surface a non-empty-type request is
accepted; an out-of-range priority yields a task with priority Medium; a
zero or negative (in particular absent) max_retries yields the default 3;
and only a strictly positive max_retries overrides the default. -/
theorem submit_priority_and_maxRetries_defaults (req : SubmitRequest)
    (id : String) (now : Int) (h : ¬ req.type = "") :
    ∃ t, handleSubmitTask req id now = SubmitOutcome.accepted t ∧
      ((req.priority < 0 ∨ 3 < req.priority) → t.priority = Priority.medium) ∧
      (req.maxRetries ≤ 0 → t.maxRetries = 3) ∧
      (0 < req.maxRetries → t.maxRetries = req.maxRetries) := by
  by_cases hm : 0 < req.maxRetries
  · refine ⟨{ newTask req.type
        (if req.priority < 0 ∨ 3 < req.priority then Priority.medium
          else priorityOfInt req.priority) req.payload id now with
        maxRetries := req.maxRetries }, ?_, ?_, ?_, ?_⟩
    · simp only [handleSubmitTask, if_neg h, if_pos hm]
    · intro hp
      simp [newTask, if_pos hp]
    · intro hmle
      exact absurd hm (not_lt.mpr hmle)
    · intro _
      rfl
  · refine ⟨newTask req.type
        (if req.priority < 0 ∨ 3 < req.priority then Priority.medium
          else priorityOfInt req.priority) req.payload id now, ?_, ?_, ?_, ?_⟩
    · simp only [handleSubmitTask, if_neg h, if_neg hm]
    · intro hp
      simp [newTask, if_pos hp]
    · intro _
      rfl
    · intro hmgt
      exact absurd hmgt hm

/-- A concrete request with out-of-range priority 7 and max_retries -1. -/
def reqW10 : SubmitRequest :=
  { type := "T", priority := 7, payload := none, maxRetries := -1 }

/-- Witness for C10: the concrete request `reqW10`. -/
theorem submit_priority_and_maxRetries_defaults_witness :
    ∃ t, handleSubmitTask reqW10 "id-w10" 5 = SubmitOutcome.accepted t ∧
      ((reqW10.priority < 0 ∨ 3 < reqW10.priority) → t.priority = Priority.medium) ∧
      (reqW10.maxRetries ≤ 0 → t.maxRetries = 3) ∧
      (0 < reqW10.maxRetries → t.maxRetries = reqW10.maxRetries) :=
  submit_priority_and_maxRetries_defaults reqW10 "id-w10" 5 (by decide)

/-- The first eight wire fields of a marshalled `Task`, in struct
declaration order (`encoding/json` emits struct fields in order). The
`payload` slot is passed in resolved form. -/
def baseFields (id ty : String) (p : Priority) (s : Status) (paySlot : Json)
    (mr rc ca : Int) : List (String × Json) :=
  [("id", .str id),
    ("type", .str ty),
    ("priority", .num p.toInt),
    ("status", .str s.toWire),
    ("payload", paySlot),
    ("max_retries", .num mr),
    ("retry_count", .num rc),
    ("created_at", .num ca)]

/-- An `omitempty` nullable-timestamp field: omitted when the pointer is
nil, otherwise carries the instant (the RFC-3339 encoding of an instant is
exactly invertible, so the model carries the instant itself). -/
def optTimeField (k : String) (x : Option Int) : List (String × Json) :=
  match x with
  | none => []
  | some v => [(k, .num v)]

/-- An `omitempty` string field: omitted when empty. -/
def optStrField (k : String) (x : String) : List (String × Json) :=
  if x = "" then [] else [(k, .str x)]

/-- task.go: `Task.ToJSON` — the JSON object `json.Marshal` produces for a
`Task`: fields in declaration order; a nil payload marshals as `null`;
`started_at`, `completed_at`, `error` and `worker_id` are `omitempty`. -/
def toJSON (t : Task) : Json :=
  .obj
    (baseFields t.id t.type t.priority t.status
        (match t.payload with
          | none => .null
          | some kvs => .obj kvs)
        t.maxRetries t.retryCount t.createdAt ++
      optTimeField "started_at" t.startedAt ++
      optTimeField "completed_at" t.completedAt ++
      optStrField "error" t.error ++
      optStrField "worker_id" t.workerId)

/-- Reading a string field, Go `encoding/json` semantics: an absent key
leaves the zero value `""`; a non-string value is a decode error. -/
def readStr (kvs : List (String × Json)) (k : String) : Option String :=
  match alookup kvs k with
  | none => some ""
  | some (.str s) => some s
  | some _ => none

/-- Reading an integer field: an absent key leaves the zero value `0`. -/
def readInt (kvs : List (String × Json)) (k : String) : Option Int :=
  match alookup kvs k with
  | none => some 0
  | some (.num n) => some n
  | some _ => none

/-- Reading a `time.Time` field: an absent key leaves the zero instant. -/
def readTime (kvs : List (String × Json)) (k : String) : Option Int :=
  match alookup kvs k with
  | none => some 0
  | some (.num n) => some n
  | some _ => none

/-- Reading a `*time.Time` field: absent or `null` leaves nil. -/
def readOptTime (kvs : List (String × Json)) (k : String) :
    Option (Option Int) :=
  match alookup kvs k with
  | none => some none
  | some .null => some none
  | some (.num n) => some (some n)
  | some _ => none

/-- Reading the payload map: absent or `null` leaves the nil map. -/
def readPayload (kvs : List (String × Json)) :
    Option (Option (List (String × Json))) :=
  match alookup kvs "payload" with
  | none => some none
  | some .null => some none
  | some (.obj fields) => some (some fields)
  | some _ => none

/-- The `Priority` denoted by a wire integer (the engine's four levels). -/
def priorityOfWireInt (n : Int) : Option Priority :=
  if n = 0 then some .low
  else if n = 1 then some .medium
  else if n = 2 then some .high
  else if n = 3 then some .critical
  else none

/-- Reading the priority field. -/
def readPriority (kvs : List (String × Json)) : Option Priority :=
  match alookup kvs "priority" with
  | some (.num n) => priorityOfWireInt n
  | _ => none

/-- Reading the status field (one of the engine's five statuses). -/
def readStatus (kvs : List (String × Json)) : Option Status :=
  match alookup kvs "status" with
  | some (.str s) => statusOfWire s
  | _ => none

/-- task.go: `FromJSON` — `json.Unmarshal` of a task wire object: each field
read by key with Go zero-value defaults for absent keys; a non-object
document is a decode error. -/
def fromJSON : Json → Option Task
  | .obj kvs => do
      let id ← readStr kvs "id"
      let ty ← readStr kvs "type"
      let priority ← readPriority kvs
      let status ← readStatus kvs
      let payload ← readPayload kvs
      let maxRetries ← readInt kvs "max_retries"
      let retryCount ← readInt kvs "retry_count"
      let createdAt ← readTime kvs "created_at"
      let startedAt ← readOptTime kvs "started_at"
      let completedAt ← readOptTime kvs "completed_at"
      let err ← readStr kvs "error"
      let workerId ← readStr kvs "worker_id"
      some
        { id := id
          type := ty
          priority := priority
          status := status
          payload := payload
          maxRetries := maxRetries
          retryCount := retryCount
          createdAt := createdAt
          startedAt := startedAt
          completedAt := completedAt
          error := err
          workerId := workerId }
  | _ => none

theorem statusOfWire_toWire (s : Status) : statusOfWire s.toWire = some s := by
  cases s <;> rfl

theorem priorityOfWireInt_toInt (p : Priority) :
    priorityOfWireInt p.toInt = some p := by
  cases p <;> rfl

/-- Claim C9: serialization round-trip — deserializing the wire form of any
task yields the task back in all attributes (id, type, priority, status,
payload, retry counters, timestamps, error and worker id). -/
theorem fromJSON_toJSON (t : Task) : fromJSON (toJSON t) = some t := by
  obtain ⟨id, ty, p, s, pay, mr, rc, ca, sa, co, er, wi⟩ := t
  have hp : priorityOfWireInt (Priority.toInt p) = some p :=
    priorityOfWireInt_toInt p
  have hs : statusOfWire (Status.toWire s) = some s := statusOfWire_toWire s
  cases pay <;> cases sa <;> cases co <;>
    rcases eq_or_ne er "" with rfl | her <;>
    rcases eq_or_ne wi "" with rfl | hwi <;>
    simp [toJSON, fromJSON, baseFields, optTimeField, optStrField, readStr,
      readInt, readTime, readOptTime, readPayload, readPriority, readStatus,
      alookup, List.find?, *]

end DTQ
